import Mathlib

/-!
Shallow embedding of the multi-provider LLM orchestration layer of the
Human-first-seo repository, together with theorems settling the frozen
claims about it.

Sources embedded (translated definition by definition):
- `src/lib/api/base-client.ts` — `BaseAPIClient`: cache, rate limiter,
  `checkRateLimit`, `createError`, `executeWithRetry`, response envelopes,
  `validateConfig`.
- `src/lib/api/openai-client.ts` — `OpenAIClient.analyzeCompetitors`
  (cache lookup → rate-limit check → config validation → retried network
  call → cache write), with its catch-all error conversion.
- `src/lib/api/llm-router.ts` — `LLMRouter`: provider runtime state,
  `getNextAvailableProvider`, `generateContent`, `enableOpenAI`.
- `src/unnamed/part_000` — the competitor-analysis POST route that fans
  out to OpenAI and Perplexity with `Promise.allSettled`, merges the
  outcomes, enhances with Claude content gaps, and sets the confidence.

Modelling conventions:
- Machine numbers are `Nat` (all relevant quantities are non-negative;
  no overflow is reachable at the magnitudes involved).
- Wall-clock instants are `Nat` parameters threaded explicitly.
- `Date`-valued fields that no claim touches (e.g. `lastAnalyzed`) and
  floating-point fields (`avgPageSpeed`, `cost`) are omitted.
- A JavaScript thrown value is a `ThrownError`: the repository throws
  both genuine `Error` instances (SDK/network failures) and plain
  `APIError` object literals built by `createError`; the
  `isErrorInstance` flag records which, since `error instanceof Error`
  branches on exactly that distinction.
-/

deriving instance DecidableEq for Except

namespace HFSeo

/-- Containment of one character list in another as a contiguous run. -/
def listIsInfix (pat : List Char) : List Char → Bool
  | [] => pat.isPrefixOf []
  | c :: t => pat.isPrefixOf (c :: t) || listIsInfix pat t

/-- JS `String.prototype.includes`: substring containment. -/
def strIncludes (s pat : String) : Bool :=
  listIsInfix pat.data s.data

/-- JS `||` on numbers: the left operand unless it is falsy (`0`). -/
def jsOrNat (n d : Nat) : Nat :=
  if n = 0 then d else n

/-- A JavaScript thrown value as it occurs in this codebase: either an
`Error` instance (only its `message` is inspected) or a plain `APIError`
object literal from `BaseAPIClient.createError` (`code`, `message`,
`provider`, `retryable`; the `timestamp: Date` field is omitted). -/
structure ThrownError where
  isErrorInstance : Bool
  code : Option String
  message : String
  provider : Option String
  retryable : Bool
deriving DecidableEq

/-- Embedding of `BaseAPIClient.createError`: builds a plain `APIError`
object literal (not an `Error` instance). -/
def createError (provider code message : String) (retryable : Bool) : ThrownError :=
  { isErrorInstance := false
    code := some code
    message := message
    provider := some provider
    retryable := retryable }

/-- A thrown `Error` instance (e.g. an SDK/network failure). -/
def jsError (message : String) : ThrownError :=
  { isErrorInstance := true
    code := none
    message := message
    provider := none
    retryable := false }

/-- Configuration of one provider client, from `APIConfig` /
`createAPIConfig` (`timeout` and the cache settings that no claim
touches are omitted; `rateLimitRequests` is `rateLimit.requests`,
default 100). -/
structure ClientConfig where
  provider : String
  apiKey : String
  model : String
  rateLimitRequests : Nat
deriving DecidableEq

/-- One live entry of the `NodeCache` instance: key, value, absolute
expiry instant (`set` stores the value for `ttl` time units). -/
structure CacheEntry (D : Type) where
  key : String
  value : D
  expiresAt : Nat
deriving DecidableEq

/-- Mutable per-client state: the `NodeCache` contents and the
`RateLimiterMemory` consumption for the current window.  `msBeforeNext`
is the wait the rate-limiter library reports when it rejects a
consumption (claims quantify within a single window, so the window
rollover is not modelled). -/
structure ClientState (D : Type) where
  cache : List (CacheEntry D)
  used : Nat
  msBeforeNext : Nat
deriving DecidableEq

/-- `NodeCache.get`: the stored value provided the entry has not
expired. -/
def cacheGet {D : Type} (cache : List (CacheEntry D)) (key : String) (now : Nat) :
    Option D :=
  match cache.find? (fun e => e.key == key) with
  | some e => if now < e.expiresAt then some e.value else none
  | none => none

/-- `NodeCache.set` with per-call TTL: overwrites the key wholesale. -/
def cacheSet {D : Type} (cache : List (CacheEntry D)) (key : String) (v : D)
    (ttl now : Nat) : List (CacheEntry D) :=
  ⟨key, v, now + ttl⟩ :: cache.filter (fun e => e.key != key)

/-- Embedding of `BaseAPIClient.getCacheKey`.  The source base64-encodes
`JSON.stringify(data)`; both are injective encodings, so the model keys
on the serialized payload itself (`payload`), keeping the
`provider:endpoint:` prefix. -/
def getCacheKey (provider endpoint payload : String) : String :=
  provider ++ ":" ++ endpoint ++ ":" ++ payload

/-- Embedding of `BaseAPIClient.checkRateLimit` around
`RateLimiterMemory.consume`: admits and counts the request while tokens
remain, otherwise throws the `RATE_LIMIT_EXCEEDED` `APIError` built from
the library's `msBeforeNext` (`Math.round((msBeforeNext || 60000)/1000) || 1`
seconds). -/
def checkRateLimit {D : Type} (cfg : ClientConfig) (s : ClientState D) :
    Except ThrownError (ClientState D) :=
  if s.used < cfg.rateLimitRequests then
    Except.ok { s with used := s.used + 1 }
  else
    let ms := jsOrNat s.msBeforeNext 60000
    let secs := jsOrNat ((ms + 500) / 1000) 1
    Except.error (createError cfg.provider "RATE_LIMIT_EXCEEDED"
      ("Rate limit exceeded. Try again in " ++ toString secs ++ " seconds.")
      true)

/-- Embedding of `BaseAPIClient.validateConfig`: throws `MISSING_API_KEY`
or `MISSING_MODEL` when the respective field is absent (falsy). -/
def validateConfig (cfg : ClientConfig) : Except ThrownError Unit :=
  if cfg.apiKey == "" then
    Except.error (createError cfg.provider "MISSING_API_KEY"
      ("API key is required for " ++ cfg.provider) false)
  else if cfg.model == "" then
    Except.error (createError cfg.provider "MISSING_MODEL"
      ("Model is required for " ++ cfg.provider) false)
  else
    Except.ok ()

/-- The non-retry guard of `executeWithRetry`:
`error instanceof Error && error.message.includes('RATE_LIMIT_EXCEEDED')`. -/
def retryGuard (e : ThrownError) : Bool :=
  e.isErrorInstance && strIncludes e.message "RATE_LIMIT_EXCEEDED"

/-- Observable outcome of one `executeWithRetry` run: the value returned
or error thrown, how many times the underlying operation was invoked,
and the backoff delays slept between attempts (in order). -/
structure RetryOutcome (α : Type) where
  result : Except ThrownError α
  calls : Nat
  delays : List Nat
deriving DecidableEq

/-- Loop body of `BaseAPIClient.executeWithRetry`, indexed by the
current `attempt` counter and by `fuel = maxRetries - attempt`, the
number of retries still permitted.  The source iterates
`attempt = 0..maxRetries` and tests `attempt === maxRetries` before
sleeping; under the loop invariant that test is exactly `fuel = 0`.
On the final attempt the failure is rethrown whether or not the
rate-limit guard matches, exactly as in the source (`break` followed by
`throw lastError`).  `attempts k` is the outcome of the (k+1)-th
invocation of `operation`. -/
def executeWithRetryGo {α : Type} (attempts : Nat → Except ThrownError α)
    (baseDelay : Nat) : Nat → Nat → RetryOutcome α
  | attempt, 0 =>
    match attempts attempt with
    | Except.ok a => { result := Except.ok a, calls := 1, delays := [] }
    | Except.error e => { result := Except.error e, calls := 1, delays := [] }
  | attempt, fuel + 1 =>
    match attempts attempt with
    | Except.ok a => { result := Except.ok a, calls := 1, delays := [] }
    | Except.error e =>
      if retryGuard e then
        { result := Except.error e, calls := 1, delays := [] }
      else
        let rest := executeWithRetryGo attempts baseDelay (attempt + 1) fuel
        { result := rest.result
          calls := rest.calls + 1
          delays := baseDelay * 2 ^ attempt :: rest.delays }

/-- Embedding of `BaseAPIClient.executeWithRetry` (defaults at call
sites: `maxRetries = 3`, `baseDelay = 1000`). -/
def executeWithRetry {α : Type} (attempts : Nat → Except ThrownError α)
    (maxRetries baseDelay : Nat) : RetryOutcome α :=
  executeWithRetryGo attempts baseDelay 0 maxRetries

/-- Response-envelope metadata (`APIResponse.metadata`); the
derived-duration and floating-point `cost` fields, which no claim
touches, are omitted. -/
structure ResponseMetadata where
  timestamp : Nat
  provider : Option String
  cached : Option Bool
  tokensUsed : Option Nat
deriving DecidableEq

/-- The uniform response envelope `APIResponse<T>` of
`src/lib/types/api.ts`.  The constructors in `base-client.ts` always
populate `data` on success and `error` on failure, but the fields are
optional in the source type, which matters to the fan-out route. -/
structure APIResponse (D : Type) where
  success : Bool
  data : Option D
  error : Option ThrownError
  metadata : ResponseMetadata
deriving DecidableEq

/-- Embedding of `BaseAPIClient.createSuccessResponse`. -/
def createSuccessResponse {D : Type} (provider : String) (d : D) (now : Nat)
    (cached : Bool) (tokensUsed : Option Nat) : APIResponse D :=
  { success := true
    data := some d
    error := none
    metadata :=
      { timestamp := now
        provider := some provider
        cached := some cached
        tokensUsed := tokensUsed } }

/-- Embedding of `BaseAPIClient.createErrorResponse`. -/
def createErrorResponse {D : Type} (provider : String) (e : ThrownError)
    (now : Nat) : APIResponse D :=
  { success := false
    data := none
    error := some e
    metadata :=
      { timestamp := now
        provider := some provider
        cached := some false
        tokensUsed := none } }

/-- The catch-all of the client methods:
`error instanceof Error ? createError(code, error.message, true)
                        : createError(code, 'Unknown error', true)`.
A thrown plain `APIError` object literal is not an `Error` instance, so
its code and message are both discarded. -/
def catchToAPIError (provider code : String) (e : ThrownError) : ThrownError :=
  if e.isErrorInstance then createError provider code e.message true
  else createError provider code "Unknown error" true

/-- Observable outcome of one client operation: the envelope returned,
the client state afterwards, and whether the underlying network call was
attempted at all. -/
structure OpOutcome (D : Type) where
  response : APIResponse D
  state : ClientState D
  networkCalled : Bool
deriving DecidableEq

/-- Embedding of `OpenAIClient.analyzeCompetitors`: cache lookup, then
`checkRateLimit`, then `validateConfig`, then the network call through
`executeWithRetry` (3 retries, 1s base delay), then a 24-hour
(86400-second) cache write.  `net` is the environment's outcome for one
network attempt (response data and `completion.usage?.total_tokens`);
`payload` is the serialized request.  Every thrown error is converted by
the catch-all into a `COMPETITOR_ANALYSIS_FAILED` error envelope. -/
def analyzeCompetitorsOp {D : Type} (cfg : ClientConfig)
    (net : Except ThrownError (D × Option Nat)) (now : Nat) (payload : String)
    (s : ClientState D) : OpOutcome D :=
  let key := getCacheKey cfg.provider "analyze-competitors" payload
  match cacheGet s.cache key now with
  | some v =>
    { response := createSuccessResponse cfg.provider v now true none
      state := s
      networkCalled := false }
  | none =>
    match checkRateLimit cfg s with
    | Except.error e =>
      { response := createErrorResponse cfg.provider
          (catchToAPIError cfg.provider "COMPETITOR_ANALYSIS_FAILED" e) now
        state := s
        networkCalled := false }
    | Except.ok s1 =>
      match validateConfig cfg with
      | Except.error e =>
        { response := createErrorResponse cfg.provider
            (catchToAPIError cfg.provider "COMPETITOR_ANALYSIS_FAILED" e) now
          state := s1
          networkCalled := false }
      | Except.ok _ =>
        match (executeWithRetry (fun _ => net) 3 1000).result with
        | Except.ok (d, tok) =>
          { response := createSuccessResponse cfg.provider d now false tok
            state := { s1 with cache := cacheSet s1.cache key d 86400 now }
            networkCalled := true }
        | Except.error e =>
          { response := createErrorResponse cfg.provider
              (catchToAPIError cfg.provider "COMPETITOR_ANALYSIS_FAILED" e) now
            state := s1
            networkCalled := true }

/-- Provider runtime state of the router (`LLMProvider` record in
`llm-router.ts`; the `client` object is abstracted into the behaviour
function passed to `generateContentRun`). -/
structure RProvider where
  name : String
  priority : Nat
  available : Bool
  lastError : Option String
deriving DecidableEq

/-- State owned by `LLMRouter`: the provider list and the informational
current-provider pointer (identified by name; provider names are unique
in the initialized router, so name-keyed update coincides with the
source's in-place object mutation). -/
structure RouterState where
  providers : List RProvider
  currentProvider : Option String
deriving DecidableEq

/-- Embedding of `LLMRouter.initializeProviders`: Claude priority 1,
Gemini priority 2, OpenAI priority 3 and disabled with a quota note;
Claude is the current provider. -/
def initRouterState : RouterState :=
  { providers :=
      [ { name := "claude", priority := 1, available := true, lastError := none }
      , { name := "gemini", priority := 2, available := true, lastError := none }
      , { name := "openai", priority := 3, available := false
        , lastError := some "Quota exceeded - temporarily disabled" } ]
    currentProvider := some "claude" }

/-- First element of a provider list whose priority is minimal — the
head of the JS stable sort by ascending priority. -/
def pickMinPriority : List RProvider → Option RProvider
  | [] => none
  | p :: rest =>
    match pickMinPriority rest with
    | none => some p
    | some q => if q.priority < p.priority then some q else some p

/-- Embedding of `LLMRouter.getNextAvailableProvider`: highest-priority
(lowest number) provider among those with `available = true`, first one
winning ties (JS `sort` is stable). -/
def getNextAvailableProvider (ps : List RProvider) : Option RProvider :=
  pickMinPriority (ps.filter (fun p => p.available))

/-- Embedding of `LLMRouter.callProvider`: dispatches on the provider
name; the three known names delegate to the concrete client (abstracted
as the behaviour `f`, which returns generated content or a failure
message); any other name throws `Unknown provider: ...`, which the
caller's `catch` treats like any provider failure. -/
def callProvider (f : String → Except String String) (p : RProvider) :
    Except String String :=
  if p.name == "claude" || p.name == "gemini" || p.name == "openai" then
    f p.name
  else
    Except.error ("Unknown provider: " ++ p.name)

/-- The two failure shapes `LLMRouter.generateContent` can throw:
`No available LLM providers` (mid-loop, when no provider is available)
and `All LLM providers failed. Last error: ...` (after the loop,
carrying the last recorded failure message). -/
inductive RouterError where
  | noAvailableProviders
  | allProvidersFailed (lastError : Option String)
deriving DecidableEq

/-- Set `available := false` and record the error on the named provider
(failure branch of the `generateContent` loop body). -/
def markFailure (ps : List RProvider) (nm msg : String) : List RProvider :=
  ps.map (fun p =>
    if p.name == nm then { p with available := false, lastError := some msg } else p)

/-- Set `available := true` and clear the error on the named provider
(success branch of the `generateContent` loop body). -/
def markSuccess (ps : List RProvider) (nm : String) : List RProvider :=
  ps.map (fun p =>
    if p.name == nm then { p with available := true, lastError := none } else p)

/-- Observable outcome of one `generateContent` call: the returned
`{content, provider}` pair or thrown error, the router state afterwards,
and which providers were attempted, in order. -/
structure GenOutcome where
  result : Except RouterError (String × String)
  state : RouterState
  attempted : List String
deriving DecidableEq

/-- Loop of `LLMRouter.generateContent`.  `fuel` counts the remaining
iterations of `for (attempt = 0; attempt < maxRetries; attempt++)` with
`maxRetries = providers.length`; `lastErr` is the running `lastError`
local. -/
def generateContentGo (f : String → Except String String) :
    RouterState → Option String → List String → Nat → GenOutcome
  | s, lastErr, att, 0 =>
    { result := Except.error (RouterError.allProvidersFailed lastErr)
      state := s, attempted := att }
  | s, _lastErr, att, fuel + 1 =>
    match getNextAvailableProvider s.providers with
    | none =>
      { result := Except.error RouterError.noAvailableProviders
        state := s, attempted := att }
    | some p =>
      match callProvider f p with
      | Except.ok content =>
        { result := Except.ok (content, p.name)
          state :=
            { providers := markSuccess s.providers p.name
              currentProvider := some p.name }
          attempted := att ++ [p.name] }
      | Except.error msg =>
        generateContentGo f
          { s with providers := markFailure s.providers p.name msg }
          (some msg) (att ++ [p.name]) fuel

/-- Embedding of `LLMRouter.generateContent`: one full pass over at most
`providers.length` attempts. -/
def generateContentRun (f : String → Except String String) (s : RouterState) :
    GenOutcome :=
  generateContentGo f s none [] s.providers.length

/-- Embedding of `LLMRouter.enableOpenAI`: re-enable the provider named
`openai` and clear its recorded error. -/
def enableOpenAI (s : RouterState) : RouterState :=
  { s with
      providers := s.providers.map (fun p =>
        if p.name == "openai" then { p with available := true, lastError := none }
        else p) }

/-- Competitor record (`CompetitorData` in `src/lib/types/api.ts`); the
floating-point `avgPageSpeed` and `Date`-valued `lastAnalyzed` fields
are omitted. -/
structure Competitor where
  domain : String
  domainAuthority : Nat
  monthlyTraffic : String
  topKeywords : List String
  contentGaps : List String
  backlinks : Nat
  contentQuality : Nat
  technicalSEO : Nat
deriving DecidableEq

/-- Content opportunity record (`ContentOpportunity`). -/
structure Opportunity where
  topic : String
  keywords : List String
  difficulty : Nat
  potential : Nat
  contentType : String
  reasoning : String
  competitorGaps : List String
deriving DecidableEq

/-- Market insight record (`MarketInsight`). -/
structure MarketInsightR where
  insight : String
  category : String
  impact : String
  timeframe : String
  actionable : Bool
  recommendations : List String
deriving DecidableEq

/-- The `analysisMetadata` block of `CompetitorAnalysisResponse`. -/
structure AnalysisMetadata where
  totalCompetitors : Nat
  analysisTime : Nat
  confidence : Nat
deriving DecidableEq

/-- `CompetitorAnalysisResponse` of `src/lib/types/api.ts`. -/
structure CompetitorAnalysisResponse where
  competitors : List Competitor
  opportunities : List Opportunity
  marketInsights : List MarketInsightR
  analysisMetadata : AnalysisMetadata
deriving DecidableEq

/-- Request body of the competitor-analysis route
(`CompetitorAnalysisRequest`); a missing `websiteUrl` is the empty
string and missing `targetKeywords` the empty list (both falsy in the
source's validation test). -/
structure AnalyzeBody where
  websiteUrl : String
  targetKeywords : List String
  analysisDepth : Option String
deriving DecidableEq

/-- Result of `Promise.allSettled` for one fanned-out call: the value of
a fulfilled promise, or a rejection. -/
inductive Settled (α : Type) where
  | fulfilled (a : α)
  | rejected
deriving DecidableEq

/-- The value of a settled promise, as in
`r.status === 'fulfilled' ? r.value : null`. -/
def settledValue {α : Type} : Settled α → Option α
  | Settled.fulfilled a => some a
  | Settled.rejected => none

/-- Environment of one POST request of the fan-out route: the settled
outcomes of the two concurrent `analyzeCompetitors` calls and the result
of the subsequent Claude `generateContentGaps` call (which never
rejects: the client catches every failure into an error envelope). -/
structure RouteInputs where
  openaiResult : Settled (APIResponse CompetitorAnalysisResponse)
  perplexityResult : Settled (APIResponse CompetitorAnalysisResponse)
  claudeGaps : APIResponse (List String)
deriving DecidableEq

/-- JS truthiness of `resp?.success` for an optional envelope. -/
def respSuccess {D : Type} : Option (APIResponse D) → Bool
  | some r => r.success
  | none => false

/-- The payload under `resp?.success && resp.data`: the data of a
present, successful envelope. -/
def successData {D : Type} : Option (APIResponse D) → Option D
  | some r => if r.success then r.data else none
  | none => none

/-- Keep-first deduplication by domain exactly as the source writes it:
`combined.filter((c, index, arr) => arr.findIndex(o => o.domain === c.domain) === index)`.
`arr` is the whole combined list and `i` the index of the element under
test. -/
def dedupByDomainGo (arr : List Competitor) : List Competitor → Nat → List Competitor
  | [], _ => []
  | c :: rest, i =>
    if arr.findIdx (fun o => o.domain == c.domain) == i then
      c :: dedupByDomainGo arr rest (i + 1)
    else
      dedupByDomainGo arr rest (i + 1)

/-- The filter-by-findIndex deduplication applied to a whole list. -/
def dedupByDomain (arr : List Competitor) : List Competitor :=
  dedupByDomainGo arr arr 0

/-- Competitor merge of the fan-out route: concatenate (base provider
first), deduplicate by domain, cap at 5 (`.slice(0, 5)`). -/
def mergeCompetitors (base extra : List Competitor) : List Competitor :=
  (dedupByDomain (base ++ extra)).take 5

/-- Specification-side deduplication: drop an element whose domain was
already seen, keep the first occurrence.  Used only to state refinement
theorems about `dedupByDomain`. -/
def dedupFirstAux (seen : List String) : List Competitor → List Competitor
  | [] => []
  | c :: rest =>
    if c.domain ∈ seen then dedupFirstAux seen rest
    else c :: dedupFirstAux (c.domain :: seen) rest

/-- Specification-side keep-first deduplication by domain. -/
def dedupFirst (l : List Competitor) : List Competitor :=
  dedupFirstAux [] l

/-- The five content types cycled through when synthesizing
opportunities from Claude's gaps. -/
def contentTypeCycle : List String :=
  ["blog", "guide", "tutorial", "comparison", "review"]

/-- One synthesized opportunity record built from the i-th Claude gap. -/
def claudeOpportunity (body : AnalyzeBody) (i : Nat) (gap : String) : Opportunity :=
  { topic := gap
    keywords := body.targetKeywords.take 3
    difficulty := 30 + i * 10
    potential := 70 + i * 5
    contentType := contentTypeCycle.getD (i % 5) "blog"
    reasoning := "Content gap identified through AI analysis: " ++ gap
    competitorGaps := [gap] }

/-- Step 3a of the route: if the Perplexity call succeeded with data,
union the competitor lists (dedup by domain, cap 5) and concatenate-cap
the opportunity (10) and market-insight (10) lists. -/
def mergePerplexity (baseData : CompetitorAnalysisResponse)
    (perplexityResponse : Option (APIResponse CompetitorAnalysisResponse)) :
    CompetitorAnalysisResponse :=
  match successData perplexityResponse with
  | some pd =>
    { baseData with
        competitors := mergeCompetitors baseData.competitors pd.competitors
        opportunities := (baseData.opportunities ++ pd.opportunities).take 10
        marketInsights := (baseData.marketInsights ++ pd.marketInsights).take 10 }
  | none => baseData

/-- Step 3b of the route: if the Claude gaps call succeeded with data,
append two gaps per competitor (cap 8 per competitor, pairing gap
indices `2i, 2i+1` with competitor `i`) and append the synthesized
opportunities (cap 10 overall). -/
def mergeClaudeGaps (body : AnalyzeBody) (d : CompetitorAnalysisResponse)
    (claudeGaps : APIResponse (List String)) : CompetitorAnalysisResponse :=
  match successData (some claudeGaps) with
  | some gaps =>
    { d with
        competitors := d.competitors.enum.map (fun p =>
          { p.2 with
              contentGaps :=
                (p.2.contentGaps ++ ((gaps.drop (p.1 * 2)).take 2)).take 8 })
        opportunities :=
          (d.opportunities
            ++ gaps.enum.map (fun p => claudeOpportunity body p.1 p.2)).take 10 }
  | none => d

/-- Observable result of the fan-out POST handler:
- `invalidRequest`: the 400 `INVALID_REQUEST` envelope;
- `bothFailed`: the 500 response forwarding
  `openaiResponse || perplexityResponse` (null when both rejected);
- `internalError`: the outer catch — reached from the merge path only if
  the gate passed yet `baseData` is undefined (a success envelope
  without data), where `baseData!.competitors` throws;
- `ok`: the 200 envelope. -/
inductive RouteResult where
  | invalidRequest
  | bothFailed (forwarded : Option (APIResponse CompetitorAnalysisResponse))
  | internalError
  | ok (resp : APIResponse CompetitorAnalysisResponse)
deriving DecidableEq

/-- The 200 envelope of the fan-out route, given the selected
`baseData = openaiResponse?.data || perplexityResponse?.data` payload
`b`: merge Perplexity, enhance with Claude gaps, set `analysisMetadata`
(confidence 95 when the Claude call succeeded, else 85) and build the
final envelope (provider `openai` hardcoded, cached and token totals
from the constituent envelopes, timestamps in the same clock as
`nowMs`; a `Date` is always truthy, so `||` picks the first present
timestamp). -/
def routeOkEnvelope (body : AnalyzeBody) (inp : RouteInputs) (nowMs : Nat)
    (b : CompetitorAnalysisResponse) : APIResponse CompetitorAnalysisResponse :=
  let openaiResponse := settledValue inp.openaiResult
  let perplexityResponse := settledValue inp.perplexityResult
  let enhanced :=
    mergeClaudeGaps body (mergePerplexity b perplexityResponse) inp.claudeGaps
  let baseTimestamp :=
    ((openaiResponse.map (fun r => r.metadata.timestamp))
      <|> (perplexityResponse.map (fun r => r.metadata.timestamp))).getD 0
  let finalData :=
    { enhanced with
        analysisMetadata :=
          { enhanced.analysisMetadata with
              analysisTime := nowMs - baseTimestamp
              confidence := if inp.claudeGaps.success then 95 else 85 } }
  { success := true
    data := some finalData
    error := none
    metadata :=
      { timestamp := nowMs
        provider := some "openai"
        cached :=
          (openaiResponse.bind (fun r => r.metadata.cached))
            <|> (perplexityResponse.bind (fun r => r.metadata.cached))
        tokensUsed := some
          (((openaiResponse.bind (fun r => r.metadata.tokensUsed)).getD 0)
            + ((perplexityResponse.bind (fun r => r.metadata.tokensUsed)).getD 0)
            + ((inp.claudeGaps.metadata.tokensUsed).getD 0)) } }

/-- Embedding of the POST handler of the fan-out competitor-analysis
route (`src/unnamed/part_000`): validate, fan out (the settled outcomes
are `inp`), gate on `!openaiResponse?.success && !perplexityResponse?.success`,
pick `baseData = openaiResponse?.data || perplexityResponse?.data`, and
build the 200 envelope (`routeOkEnvelope`). -/
def analyzeRoute (body : AnalyzeBody) (inp : RouteInputs) (nowMs : Nat) :
    RouteResult :=
  if body.websiteUrl == "" || body.targetKeywords.isEmpty then
    RouteResult.invalidRequest
  else
    let openaiResponse := settledValue inp.openaiResult
    let perplexityResponse := settledValue inp.perplexityResult
    if !(respSuccess openaiResponse) && !(respSuccess perplexityResponse) then
      RouteResult.bothFailed (openaiResponse <|> perplexityResponse)
    else
      match openaiResponse.bind (fun r => r.data)
          <|> perplexityResponse.bind (fun r => r.data) with
      | none => RouteResult.internalError
      | some baseData => RouteResult.ok (routeOkEnvelope body inp nowMs baseData)

/-- The provider-derived content of an analysis payload: everything
except the wall-clock `analysisTime` duration. -/
def analysisContent (d : CompetitorAnalysisResponse) :
    List Competitor × List Opportunity × List MarketInsightR × Nat × Nat :=
  (d.competitors, d.opportunities, d.marketInsights,
    d.analysisMetadata.totalCompetitors, d.analysisMetadata.confidence)

/-- Number of the three provider calls of one fan-out request that
returned a success envelope (OpenAI, Perplexity, Claude). -/
def successCount (inp : RouteInputs) : Nat :=
  (if respSuccess (settledValue inp.openaiResult) then 1 else 0)
    + (if respSuccess (settledValue inp.perplexityResult) then 1 else 0)
    + (if inp.claudeGaps.success then 1 else 0)

/-- Well-formedness of an envelope as actually produced by the clients:
`createSuccessResponse` always populates `data`, `createErrorResponse`
never does. -/
def envelopeWF {D : Type} (r : APIResponse D) : Prop :=
  (r.success = true → r.data.isSome) ∧ (r.success = false → r.data = none)

/-- Well-formedness of a settled fan-out outcome. -/
def settledWF {D : Type} : Settled (APIResponse D) → Prop
  | Settled.fulfilled r => envelopeWF r
  | Settled.rejected => True

/-- A settled fan-out slot that did not succeed (rejected, or fulfilled
with a failure envelope). -/
def settledFailed {D : Type} (s : Settled (APIResponse D)) : Prop :=
  respSuccess (settledValue s) = false

/-- Concrete-input fixture: a competitor record with the given domain
and content-quality score (remaining fields fixed). -/
def mkCompetitor (dom : String) (quality : Nat) : Competitor :=
  { domain := dom
    domainAuthority := 50
    monthlyTraffic := "10K"
    topKeywords := ["seo"]
    contentGaps := ["gap"]
    backlinks := 100
    contentQuality := quality
    technicalSEO := 60 }

/-- Concrete-input fixture: a valid request body. -/
def fixtureBody : AnalyzeBody :=
  { websiteUrl := "example.com"
    targetKeywords := ["seo tools"]
    analysisDepth := some "detailed" }

/-- Concrete-input fixture: an analysis payload holding the given
competitor list. -/
def fixtureData (cs : List Competitor) : CompetitorAnalysisResponse :=
  { competitors := cs
    opportunities := []
    marketInsights := []
    analysisMetadata :=
      { totalCompetitors := cs.length, analysisTime := 0, confidence := 85 } }

/-- Concrete-input fixture: a success envelope from the given provider. -/
def fixtureSuccess (provider : String) (d : CompetitorAnalysisResponse) :
    APIResponse CompetitorAnalysisResponse :=
  createSuccessResponse provider d 1000 false (some 10)

/-- Concrete-input fixture: a failure envelope from the given provider. -/
def fixtureFailure (provider code msg : String) :
    APIResponse CompetitorAnalysisResponse :=
  createErrorResponse provider (createError provider code msg true) 1000

/-- Concrete-input fixture: a successful Claude gaps envelope. -/
def claudeOkEnvelope : APIResponse (List String) :=
  createSuccessResponse "claude" ["gapA", "gapB"] 1000 false (some 5)

/-- Concrete-input fixture: a failed Claude gaps envelope. -/
def claudeFailEnvelope : APIResponse (List String) :=
  createErrorResponse "claude"
    (createError "claude" "CONTENT_GAPS_FAILED" "parse error" true) 1000

/-- Concrete-input fixture: both fan-out providers succeed, the Claude
gaps call fails — two of the three provider calls succeed. -/
def inputsFanoutOnly : RouteInputs :=
  { openaiResult :=
      Settled.fulfilled (fixtureSuccess "openai" (fixtureData [mkCompetitor "a.com" 70]))
    perplexityResult :=
      Settled.fulfilled (fixtureSuccess "perplexity" (fixtureData [mkCompetitor "b.com" 80]))
    claudeGaps := claudeFailEnvelope }

/-- Concrete-input fixture: OpenAI and Claude succeed, Perplexity fails —
again two of the three provider calls succeed. -/
def inputsOpenaiClaude : RouteInputs :=
  { openaiResult :=
      Settled.fulfilled (fixtureSuccess "openai" (fixtureData [mkCompetitor "a.com" 70]))
    perplexityResult :=
      Settled.fulfilled (fixtureFailure "perplexity" "COMPETITOR_ANALYSIS_FAILED" "down")
    claudeGaps := claudeOkEnvelope }

/-- Whether a route result is the 200 success response. -/
def routeIsOk : RouteResult → Bool
  | RouteResult.ok _ => true
  | _ => false

/-- The analysis payload of a 200 route result. -/
def routeData : RouteResult → Option CompetitorAnalysisResponse
  | RouteResult.ok r => r.data
  | _ => none

/-- The `analysisMetadata.confidence` of a 200 route result. -/
def routeConfidence (r : RouteResult) : Option Nat :=
  (routeData r).map (fun d => d.analysisMetadata.confidence)

/-- Concrete-input fixture: primary provider competitor list (3 unique
domains). -/
def fanListA : List Competitor :=
  [mkCompetitor "a.com" 70, mkCompetitor "b.com" 60, mkCompetitor "c.com" 50]

/-- Concrete-input fixture: secondary provider competitor list (5
entries, one domain shared with the primary list; 7 unique domains in
total across both). -/
def fanListB : List Competitor :=
  [mkCompetitor "b.com" 80, mkCompetitor "d.com" 40, mkCompetitor "e.com" 30,
   mkCompetitor "f.com" 20, mkCompetitor "g.com" 10]

/-- Concrete-input fixture: the OpenAI client configuration with the
default 100-requests-per-window quota. -/
def fixtureCfg : ClientConfig :=
  { provider := "openai"
    apiKey := "sk-test"
    model := "gpt-4o-mini"
    rateLimitRequests := 100 }

end HFSeo

namespace HFSeo

/-! Helper lemmas shared by several claims. -/

/-- On constant attempt outcomes the retry loop returns exactly that
outcome. -/
theorem executeWithRetryGo_const_result {α : Type} (c : Except ThrownError α)
    (baseDelay : Nat) : ∀ fuel attempt,
    (executeWithRetryGo (fun _ => c) baseDelay attempt fuel).result = c := by
  intro fuel
  induction fuel with
  | zero =>
    intro attempt
    cases c <;> simp [executeWithRetryGo]
  | succ n ih =>
    intro attempt
    cases hc : c with
    | ok a => simp [executeWithRetryGo, hc]
    | error e =>
      by_cases hg : retryGuard e
      · simp [executeWithRetryGo, hc, hg]
      · simpa [executeWithRetryGo, hc, hg] using ih (attempt + 1)

/-- A run in which every attempt fails with a non-rate-limit error:
fuel + 1 calls, the last attempt's error, a doubling backoff delay per
consumed retry. -/
theorem executeWithRetryGo_all_fail {α : Type}
    (attempts : Nat → Except ThrownError α) (baseDelay : Nat)
    (e : Nat → ThrownError)
    (hfail : ∀ k, attempts k = Except.error (e k))
    (hng : ∀ k, retryGuard (e k) = false) :
    ∀ fuel attempt,
      executeWithRetryGo attempts baseDelay attempt fuel =
        { result := Except.error (e (attempt + fuel))
          calls := fuel + 1
          delays := (List.range fuel).map (fun i => baseDelay * 2 ^ (attempt + i)) } := by
  intro fuel
  induction fuel with
  | zero =>
    intro attempt
    simp [executeWithRetryGo, hfail attempt]
  | succ n ih =>
    intro attempt
    have hrec := ih (attempt + 1)
    have hidx : attempt + 1 + n = attempt + (n + 1) := by omega
    have hdel : baseDelay * 2 ^ attempt :: (List.range n).map
          (fun i => baseDelay * 2 ^ (attempt + 1 + i))
        = (List.range (n + 1)).map (fun i => baseDelay * 2 ^ (attempt + i)) := by
      rw [List.range_succ_eq_map, List.map_cons, List.map_map, Nat.add_zero]
      refine congrArg (List.cons _) (List.map_congr_left ?_)
      intro i _
      have h2 : attempt + 1 + i = attempt + (i + 1) := by omega
      simp [Function.comp, h2]
    simp only [executeWithRetryGo, hfail attempt, hng attempt, Bool.false_eq_true,
      if_false, hrec]
    rw [hidx, hdel]

/-- Claim C4: when the underlying call fails on every attempt with
non-rate-limit errors, `executeWithRetry` invokes the call exactly
`maxRetries + 1` times, the delay before retry `k` (0-based) is
`baseDelay * 2 ^ k` (hence the delays are non-decreasing), and the error
finally thrown is the error of the last attempt. -/
theorem retry_exhaustion_bound {α : Type}
    (attempts : Nat → Except ThrownError α) (maxRetries baseDelay : Nat)
    (e : Nat → ThrownError)
    (hfail : ∀ k, attempts k = Except.error (e k))
    (hng : ∀ k, retryGuard (e k) = false) :
    (executeWithRetry attempts maxRetries baseDelay).calls = maxRetries + 1 ∧
    (executeWithRetry attempts maxRetries baseDelay).result
        = Except.error (e maxRetries) ∧
    (executeWithRetry attempts maxRetries baseDelay).delays
        = (List.range maxRetries).map (fun k => baseDelay * 2 ^ k) ∧
    List.Chain' (fun a b => a ≤ b)
      (executeWithRetry attempts maxRetries baseDelay).delays := by
  have h := executeWithRetryGo_all_fail attempts baseDelay e hfail hng maxRetries 0
  rw [executeWithRetry, h]
  refine ⟨rfl, by rw [Nat.zero_add], by simp, ?_⟩
  simp only [List.chain'_map]
  cases maxRetries with
  | zero => simp
  | succ n =>
    rw [List.chain'_range_succ]
    intro m _
    have h1 : (0 : Nat) + m ≤ 0 + (m + 1) := by omega
    exact Nat.mul_le_mul_left baseDelay (Nat.pow_le_pow_right (by omega) h1)

/-- Witness for C4 at a concrete input: an operation failing every
attempt with a plain network `Error`, three retries, 1-second base
delay. -/
theorem retry_exhaustion_bound_witness :
    (executeWithRetry (fun _ => (Except.error (jsError "socket hangup") :
        Except ThrownError Unit)) 3 1000).calls = 3 + 1 ∧
    (executeWithRetry (fun _ => (Except.error (jsError "socket hangup") :
        Except ThrownError Unit)) 3 1000).result
        = Except.error (jsError "socket hangup") ∧
    (executeWithRetry (fun _ => (Except.error (jsError "socket hangup") :
        Except ThrownError Unit)) 3 1000).delays
        = (List.range 3).map (fun k => 1000 * 2 ^ k) ∧
    List.Chain' (fun a b => a ≤ b)
      (executeWithRetry (fun _ => (Except.error (jsError "socket hangup") :
        Except ThrownError Unit)) 3 1000).delays :=
  by
  have hg : retryGuard (jsError "socket hangup") = false := by decide
  exact retry_exhaustion_bound (fun _ => Except.error (jsError "socket hangup"))
    3 1000 (fun _ => jsError "socket hangup") (fun _ => rfl) (fun _ => hg)

/-- Claim C3 (code bug): the loop is meant never to retry a rate-limit
failure, but its guard tests
`error instanceof Error && error.message.includes('RATE_LIMIT_EXCEEDED')`,
while the `RateLimitExceeded` error that `checkRateLimit` throws is a
plain object literal (not an `Error` instance) whose message is
`Rate limit exceeded. Try again in N seconds.` — it contains no
`RATE_LIMIT_EXCEEDED` token.  So an operation failing with exactly that
error is retried the full `maxRetries` times instead of being rethrown
immediately: 4 calls and 3 backoff sleeps instead of 1 call. -/
theorem rate_limit_error_is_retried :
    retryGuard (createError "openai" "RATE_LIMIT_EXCEEDED"
        "Rate limit exceeded. Try again in 5 seconds." true) = false ∧
    (executeWithRetry (fun _ => (Except.error (createError "openai"
        "RATE_LIMIT_EXCEEDED" "Rate limit exceeded. Try again in 5 seconds." true) :
        Except ThrownError Unit)) 3 1000).calls = 4 ∧
    (executeWithRetry (fun _ => (Except.error (createError "openai"
        "RATE_LIMIT_EXCEEDED" "Rate limit exceeded. Try again in 5 seconds." true) :
        Except ThrownError Unit)) 3 1000).delays = [1000, 2000, 4000] ∧
    (executeWithRetry (fun _ => (Except.error (createError "openai"
        "RATE_LIMIT_EXCEEDED" "Rate limit exceeded. Try again in 5 seconds." true) :
        Except ThrownError Unit)) 3 1000).result
      = Except.error (createError "openai" "RATE_LIMIT_EXCEEDED"
          "Rate limit exceeded. Try again in 5 seconds." true) := by
  decide

/-- A freshly written cache entry is returned for its key at any
instant strictly before its expiry. -/
theorem cacheGet_cacheSet_self {D : Type} (cache : List (CacheEntry D))
    (key : String) (v : D) (ttl now t : Nat) (h : t < now + ttl) :
    cacheGet (cacheSet cache key v ttl now) key t = some v := by
  unfold cacheGet cacheSet
  rw [List.find?_cons_of_pos _ (by simp)]
  simp [h]

/-- Claim C5: two calls with an identical payload to the same provider
and operation within the cache TTL: if the first call went to the
network and succeeded, the second call (at any instant within the
24-hour TTL of the freshly written entry, under any network behaviour)
returns the same payload, reports `cached = true`, performs no network
call, and leaves the client state — including the rate-limiter
consumption — untouched, because the cache lookup precedes the
rate-limit check. -/
theorem cache_idempotence_within_ttl {D : Type} (cfg : ClientConfig)
    (net net2 : Except ThrownError (D × Option Nat)) (t1 t2 : Nat)
    (payload : String) (s : ClientState D)
    (hnet : (analyzeCompetitorsOp cfg net t1 payload s).networkCalled = true)
    (hok : (analyzeCompetitorsOp cfg net t1 payload s).response.success = true)
    (httl : t2 < t1 + 86400) :
    (analyzeCompetitorsOp cfg net2 t2 payload
        (analyzeCompetitorsOp cfg net t1 payload s).state).response.success = true ∧
    (analyzeCompetitorsOp cfg net2 t2 payload
        (analyzeCompetitorsOp cfg net t1 payload s).state).response.data
      = (analyzeCompetitorsOp cfg net t1 payload s).response.data ∧
    (analyzeCompetitorsOp cfg net2 t2 payload
        (analyzeCompetitorsOp cfg net t1 payload s).state).response.metadata.cached
      = some true ∧
    (analyzeCompetitorsOp cfg net2 t2 payload
        (analyzeCompetitorsOp cfg net t1 payload s).state).networkCalled = false ∧
    (analyzeCompetitorsOp cfg net2 t2 payload
        (analyzeCompetitorsOp cfg net t1 payload s).state).state
      = (analyzeCompetitorsOp cfg net t1 payload s).state := by
  cases hc : cacheGet s.cache (getCacheKey cfg.provider "analyze-competitors" payload) t1 with
  | some v => simp [analyzeCompetitorsOp, hc] at hnet
  | none =>
    cases hr : checkRateLimit cfg s with
    | error e => simp [analyzeCompetitorsOp, hc, hr] at hnet
    | ok s1 =>
      cases hv : validateConfig cfg with
      | error e => simp [analyzeCompetitorsOp, hc, hr, hv] at hnet
      | ok u =>
        cases hx : (executeWithRetry (fun _ => net) 3 1000).result with
        | error e =>
          simp [analyzeCompetitorsOp, hc, hr, hv, hx, createErrorResponse] at hok
        | ok p =>
          obtain ⟨d, tok⟩ := p
          have h1 : analyzeCompetitorsOp cfg net t1 payload s =
              { response := createSuccessResponse cfg.provider d t1 false tok
                state :=
                  ⟨cacheSet s1.cache
                      (getCacheKey cfg.provider "analyze-competitors" payload) d 86400 t1,
                    s1.used, s1.msBeforeNext⟩
                networkCalled := true } := by
            simp [analyzeCompetitorsOp, hc, hr, hv, hx]
          have h2 : cacheGet (cacheSet s1.cache
              (getCacheKey cfg.provider "analyze-competitors" payload) d 86400 t1)
              (getCacheKey cfg.provider "analyze-competitors" payload) t2 = some d :=
            cacheGet_cacheSet_self _ _ _ _ _ _ httl
          rw [h1]
          simp [analyzeCompetitorsOp, h2, createSuccessResponse]

/-- Witness for C5 at a concrete input: a fresh state, a successful
network outcome at time 2000, and a repeat request at time 3000. -/
theorem cache_idempotence_within_ttl_witness :
    ((analyzeCompetitorsOp fixtureCfg
        (Except.ok (fixtureData [mkCompetitor "a.com" 70], some 10)) 2000 "req1"
        { cache := [], used := 0, msBeforeNext := 30000 }).networkCalled = true ∧
      (analyzeCompetitorsOp fixtureCfg
        (Except.ok (fixtureData [mkCompetitor "a.com" 70], some 10)) 2000 "req1"
        { cache := [], used := 0, msBeforeNext := 30000 }).response.success = true ∧
      (3000 : Nat) < 2000 + 86400) ∧
    ((analyzeCompetitorsOp fixtureCfg (Except.error (jsError "down")) 3000 "req1"
        (analyzeCompetitorsOp fixtureCfg
          (Except.ok (fixtureData [mkCompetitor "a.com" 70], some 10)) 2000 "req1"
          { cache := [], used := 0, msBeforeNext := 30000 }).state).response.success = true ∧
      (analyzeCompetitorsOp fixtureCfg (Except.error (jsError "down")) 3000 "req1"
        (analyzeCompetitorsOp fixtureCfg
          (Except.ok (fixtureData [mkCompetitor "a.com" 70], some 10)) 2000 "req1"
          { cache := [], used := 0, msBeforeNext := 30000 }).state).response.data
        = (analyzeCompetitorsOp fixtureCfg
          (Except.ok (fixtureData [mkCompetitor "a.com" 70], some 10)) 2000 "req1"
          { cache := [], used := 0, msBeforeNext := 30000 }).response.data ∧
      (analyzeCompetitorsOp fixtureCfg (Except.error (jsError "down")) 3000 "req1"
        (analyzeCompetitorsOp fixtureCfg
          (Except.ok (fixtureData [mkCompetitor "a.com" 70], some 10)) 2000 "req1"
          { cache := [], used := 0, msBeforeNext := 30000 }).state).response.metadata.cached
        = some true ∧
      (analyzeCompetitorsOp fixtureCfg (Except.error (jsError "down")) 3000 "req1"
        (analyzeCompetitorsOp fixtureCfg
          (Except.ok (fixtureData [mkCompetitor "a.com" 70], some 10)) 2000 "req1"
          { cache := [], used := 0, msBeforeNext := 30000 }).state).networkCalled = false ∧
      (analyzeCompetitorsOp fixtureCfg (Except.error (jsError "down")) 3000 "req1"
        (analyzeCompetitorsOp fixtureCfg
          (Except.ok (fixtureData [mkCompetitor "a.com" 70], some 10)) 2000 "req1"
          { cache := [], used := 0, msBeforeNext := 30000 }).state).state
        = (analyzeCompetitorsOp fixtureCfg
          (Except.ok (fixtureData [mkCompetitor "a.com" 70], some 10)) 2000 "req1"
          { cache := [], used := 0, msBeforeNext := 30000 }).state) := by
  refine ⟨⟨by decide, by decide, by decide⟩, ?_⟩
  exact cache_idempotence_within_ttl fixtureCfg
    (Except.ok (fixtureData [mkCompetitor "a.com" 70], some 10))
    (Except.error (jsError "down")) 2000 3000 "req1"
    { cache := [], used := 0, msBeforeNext := 30000 }
    (by decide) (by decide) (by decide)

/-- Claim C9 (code bug): with the default quota of 100 requests per
window, after 100 admissions the next uncached request is rejected
before any network call — `checkRateLimit` throws the
`RATE_LIMIT_EXCEEDED` error carrying the retry-after duration (here 30
seconds from the library's `msBeforeNext = 30000`) — but the client's
catch-all sees a plain object literal rather than an `Error` instance
and surfaces `COMPETITOR_ANALYSIS_FAILED` / `Unknown error` instead, so
the caller never receives the `RateLimitExceeded` code or the
retry-after duration. -/
theorem rate_limit_exhaustion_surfaces_generic_error :
    checkRateLimit fixtureCfg
        ({ cache := [], used := 99, msBeforeNext := 30000 } :
          ClientState CompetitorAnalysisResponse)
      = Except.ok { cache := [], used := 100, msBeforeNext := 30000 } ∧
    checkRateLimit fixtureCfg
        ({ cache := [], used := 100, msBeforeNext := 30000 } :
          ClientState CompetitorAnalysisResponse)
      = Except.error (createError "openai" "RATE_LIMIT_EXCEEDED"
          "Rate limit exceeded. Try again in 30 seconds." true) ∧
    (analyzeCompetitorsOp fixtureCfg
        (Except.ok (fixtureData [mkCompetitor "a.com" 70], some 10)) 2000 "req1"
        { cache := [], used := 100, msBeforeNext := 30000 }).networkCalled = false ∧
    (analyzeCompetitorsOp fixtureCfg
        (Except.ok (fixtureData [mkCompetitor "a.com" 70], some 10)) 2000 "req1"
        { cache := [], used := 100, msBeforeNext := 30000 }).response.success = false ∧
    (analyzeCompetitorsOp fixtureCfg
        (Except.ok (fixtureData [mkCompetitor "a.com" 70], some 10)) 2000 "req1"
        { cache := [], used := 100, msBeforeNext := 30000 }).response.error
      = some (createError "openai" "COMPETITOR_ANALYSIS_FAILED" "Unknown error" true) := by
  decide

/-- Position characterization of `findIndex` on a split list: the first
index matching a domain equals the length of the prefix exactly when no
prefix element carries that domain. -/
theorem findIdx_append_self (c : Competitor) (pre rest : List Competitor) :
    ((pre ++ c :: rest).findIdx (fun o => o.domain == c.domain) = pre.length)
      ↔ (∀ x ∈ pre, (x.domain == c.domain) = false) := by
  induction pre with
  | nil => simp [List.findIdx_cons]
  | cons x pre ih =>
    cases hx : (x.domain == c.domain) with
    | true =>
      apply iff_of_false
      · simp only [List.cons_append, List.findIdx_cons, hx, cond_true, List.length_cons]
        omega
      · intro h
        have hfalse := h x (List.mem_cons_self x pre)
        rw [hx] at hfalse
        exact absurd hfalse (by decide)
    | false =>
      simp only [List.cons_append, List.findIdx_cons, hx, cond_false, List.length_cons]
      constructor
      · intro h
        have h' : (pre ++ c :: rest).findIdx (fun o => o.domain == c.domain)
            = pre.length := by omega
        intro y hy
        rcases List.mem_cons.1 hy with hy0 | hy'
        · rw [hy0]
          exact hx
        · exact (ih.1 h') y hy'
      · intro h
        have h' := ih.2 (fun y hy => h y (List.mem_cons_of_mem _ hy))
        rw [h']

/-- The seen-set of the specification-side deduplication only matters up
to membership. -/
theorem dedupFirstAux_congr : ∀ (l : List Competitor) (s1 s2 : List String),
    (∀ d, d ∈ s1 ↔ d ∈ s2) → dedupFirstAux s1 l = dedupFirstAux s2 l := by
  intro l
  induction l with
  | nil => intro s1 s2 _; rfl
  | cons c rest ih =>
    intro s1 s2 h
    by_cases hc : c.domain ∈ s1
    · have hc2 : c.domain ∈ s2 := (h _).1 hc
      simp only [dedupFirstAux, if_pos hc, if_pos hc2]
      exact ih s1 s2 h
    · have hc2 : c.domain ∉ s2 := fun hx => hc ((h _).2 hx)
      simp only [dedupFirstAux, if_neg hc, if_neg hc2]
      refine congrArg (List.cons c) (ih _ _ ?_)
      intro d
      simp only [List.mem_cons]
      exact or_congr Iff.rfl (h d)

/-- The source's filter-by-findIndex deduplication, started after an
arbitrary prefix, agrees with the specification-side keep-first
deduplication whose seen-set holds exactly the prefix domains. -/
theorem dedupByDomainGo_eq_aux : ∀ (post pre : List Competitor) (seen : List String),
    (∀ d, d ∈ seen ↔ d ∈ pre.map (fun c => c.domain)) →
    dedupByDomainGo (pre ++ post) post pre.length = dedupFirstAux seen post := by
  intro post
  induction post with
  | nil => intro pre seen _; rfl
  | cons c rest ih =>
    intro pre seen hseen
    have harr : pre ++ c :: rest = (pre ++ [c]) ++ rest := by simp
    have hlen : pre.length + 1 = (pre ++ [c]).length := by simp
    by_cases hmem : c.domain ∈ seen
    · have hpre : ¬ (∀ x ∈ pre, (x.domain == c.domain) = false) := by
        have hm : c.domain ∈ pre.map (fun c => c.domain) := (hseen _).1 hmem
        obtain ⟨x, hx, hxd⟩ := List.mem_map.1 hm
        intro hall
        have hfx := hall x hx
        rw [hxd] at hfx
        simp at hfx
      have hfind : ¬ ((pre ++ c :: rest).findIdx (fun o => o.domain == c.domain)
          = pre.length) := fun h => hpre ((findIdx_append_self c pre rest).1 h)
      have hbeq : ((pre ++ c :: rest).findIdx (fun o => o.domain == c.domain)
          == pre.length) = false := beq_eq_false_iff_ne.2 hfind
      have hseen' : ∀ d, d ∈ seen ↔ d ∈ (pre ++ [c]).map (fun c => c.domain) := by
        intro d
        rw [List.map_append, List.mem_append]
        constructor
        · intro h
          exact Or.inl ((hseen d).1 h)
        · rintro (h | h)
          · exact (hseen d).2 h
          · simp only [List.map_cons, List.map_nil, List.mem_singleton] at h
            rw [h]
            exact hmem
      have hrec := ih (pre ++ [c]) seen hseen'
      have hstep : dedupByDomainGo (pre ++ c :: rest) (c :: rest) pre.length
          = dedupByDomainGo (pre ++ c :: rest) rest (pre.length + 1) := by
        simp [dedupByDomainGo, hbeq]
      rw [hstep, hlen, harr, hrec]
      simp [dedupFirstAux, hmem]
    · have hpre : ∀ x ∈ pre, (x.domain == c.domain) = false := by
        intro x hx
        cases hxd : (x.domain == c.domain) with
        | false => rfl
        | true =>
          exfalso
          apply hmem
          apply (hseen _).2
          exact List.mem_map.2 ⟨x, hx, (beq_iff_eq.1 hxd)⟩
      have hfind : (pre ++ c :: rest).findIdx (fun o => o.domain == c.domain)
          = pre.length := (findIdx_append_self c pre rest).2 hpre
      have hbeq : ((pre ++ c :: rest).findIdx (fun o => o.domain == c.domain)
          == pre.length) = true := beq_iff_eq.2 hfind
      have hseen' : ∀ d, d ∈ c.domain :: seen ↔ d ∈ (pre ++ [c]).map (fun c => c.domain) := by
        intro d
        rw [List.map_append, List.mem_append, List.mem_cons]
        constructor
        · rintro (h | h)
          · refine Or.inr ?_
            simp only [List.map_cons, List.map_nil, List.mem_singleton]
            exact h
          · exact Or.inl ((hseen d).1 h)
        · rintro (h | h)
          · exact Or.inr ((hseen d).2 h)
          · simp only [List.map_cons, List.map_nil, List.mem_singleton] at h
            exact Or.inl h
      have hrec := ih (pre ++ [c]) (c.domain :: seen) hseen'
      have hstep : dedupByDomainGo (pre ++ c :: rest) (c :: rest) pre.length
          = c :: dedupByDomainGo (pre ++ c :: rest) rest (pre.length + 1) := by
        simp [dedupByDomainGo, hbeq]
      rw [hstep, hlen, harr, hrec]
      simp [dedupFirstAux, hmem]

/-- The source's deduplication coincides with keep-first deduplication
by domain. -/
theorem dedupByDomain_eq_dedupFirst (l : List Competitor) :
    dedupByDomain l = dedupFirst l := by
  have h := dedupByDomainGo_eq_aux l [] [] (by simp)
  simpa [dedupByDomain, dedupFirst] using h

/-- The competitor merge of the fan-out route is keep-first-by-domain
deduplication of the concatenated lists, capped at five. -/
theorem mergeCompetitors_eq (a b : List Competitor) :
    mergeCompetitors a b = (dedupFirst (a ++ b)).take 5 := by
  rw [mergeCompetitors, dedupByDomain_eq_dedupFirst]

/-- Every survivor of the keep-first deduplication is the first element
of the input carrying its domain. -/
theorem mem_dedupFirstAux_find : ∀ (l : List Competitor) (seen : List String)
    (c : Competitor), c ∈ dedupFirstAux seen l →
    c.domain ∉ seen ∧ l.find? (fun o => o.domain == c.domain) = some c := by
  intro l
  induction l with
  | nil =>
    intro seen c h
    simp [dedupFirstAux] at h
  | cons x rest ih =>
    intro seen c h
    by_cases hx : x.domain ∈ seen
    · simp only [dedupFirstAux, if_pos hx] at h
      obtain ⟨hns, hf⟩ := ih seen c h
      refine ⟨hns, ?_⟩
      have hne : (x.domain == c.domain) = false := by
        refine beq_eq_false_iff_ne.2 ?_
        intro he
        rw [he] at hx
        exact hns hx
      rw [List.find?_cons_of_neg _ (by simp [hne])]
      exact hf
    · simp only [dedupFirstAux, if_neg hx] at h
      rcases List.mem_cons.1 h with hc | hc
      · subst hc
        exact ⟨hx, by rw [List.find?_cons_of_pos _ (by simp)]⟩
      · obtain ⟨hns, hf⟩ := ih _ c hc
        have hd : c.domain ≠ x.domain := by
          intro he
          rw [he] at hns
          exact hns (List.mem_cons_self _ _)
        refine ⟨fun hcs => hns (List.mem_cons_of_mem _ hcs), ?_⟩
        have hne : (x.domain == c.domain) = false :=
          beq_eq_false_iff_ne.2 (fun he => hd he.symm)
        rw [List.find?_cons_of_neg _ (by simp [hne])]
        exact hf

/-- Claim C6: the merged competitor list of the fan-out path is the
concatenation (primary provider first) deduplicated by domain keeping
the first occurrence and truncated to at most five entries; on the
concrete pair of lists that share one duplicate domain and total seven
unique domains, the merge yields exactly the first five domains in
first-seen order. -/
theorem merge_dedup_and_cap :
    (∀ a b : List Competitor, mergeCompetitors a b = (dedupFirst (a ++ b)).take 5) ∧
    (mergeCompetitors fanListA fanListB).map (fun c => c.domain)
      = ["a.com", "b.com", "c.com", "d.com", "e.com"] ∧
    (mergeCompetitors fanListA fanListB).length = 5 :=
  ⟨mergeCompetitors_eq, by decide, by decide⟩

/-- Claim C7 counterexample: providers report content quality 70 and 80
for the same domain `a.com`; the merged record carries 70, not the
rounded arithmetic mean 75 — no score blending happens in the merge. -/
theorem merge_does_not_blend_scores :
    (mergeCompetitors [mkCompetitor "a.com" 70] [mkCompetitor "a.com" 80]).map
        (fun c => c.contentQuality) = [70] ∧
    (70 + 80) / 2 = 75 ∧
    ([70] : List Nat) ≠ [75] := by
  decide

/-- Claim C7 (amended): when two providers report a record for the same
dimension (domain), the merged result keeps the first-seen provider's
record verbatim — every merged entry is the first element of the
concatenated input with its domain, so numeric scores are never averaged;
in particular quality 70 and 80 for one domain merge to 70. -/
theorem merge_keeps_first_occurrence_score :
    (∀ (a b : List Competitor) (c : Competitor), c ∈ mergeCompetitors a b →
        (a ++ b).find? (fun o => o.domain == c.domain) = some c) ∧
    (mergeCompetitors [mkCompetitor "a.com" 70] [mkCompetitor "a.com" 80]).map
        (fun c => c.contentQuality) = [70] := by
  constructor
  · intro a b c hc
    rw [mergeCompetitors_eq] at hc
    exact (mem_dedupFirstAux_find (a ++ b) [] c (List.mem_of_mem_take hc)).2
  · decide

/-- Witness for C7's amended theorem at a concrete input. -/
theorem merge_keeps_first_occurrence_score_witness :
    (mkCompetitor "a.com" 70
        ∈ mergeCompetitors [mkCompetitor "a.com" 70] [mkCompetitor "a.com" 80]) ∧
    ([mkCompetitor "a.com" 70] ++ [mkCompetitor "a.com" 80]).find?
        (fun o => o.domain == (mkCompetitor "a.com" 70).domain)
      = some (mkCompetitor "a.com" 70) := by
  refine ⟨by decide, ?_⟩
  exact merge_keeps_first_occurrence_score.1 _ _ _ (by decide)

/-- A provider returned by `pickMinPriority` belongs to the list. -/
theorem pickMinPriority_mem : ∀ {l : List RProvider} {p : RProvider},
    pickMinPriority l = some p → p ∈ l := by
  intro l
  induction l with
  | nil =>
    intro p h
    simp [pickMinPriority] at h
  | cons a t ih =>
    intro p h
    cases ht : pickMinPriority t with
    | none =>
      simp only [pickMinPriority, ht] at h
      obtain rfl : a = p := Option.some.inj h
      exact List.mem_cons_self a t
    | some q =>
      simp only [pickMinPriority, ht] at h
      by_cases hlt : q.priority < a.priority
      · rw [if_pos hlt] at h
        obtain rfl : q = p := Option.some.inj h
        exact List.mem_cons_of_mem a (ih ht)
      · rw [if_neg hlt] at h
        obtain rfl : a = p := Option.some.inj h
        exact List.mem_cons_self a t

/-- The list is empty exactly when `pickMinPriority` finds nothing. -/
theorem pickMinPriority_eq_none : ∀ {l : List RProvider},
    pickMinPriority l = none ↔ l = [] := by
  intro l
  cases l with
  | nil => simp [pickMinPriority]
  | cons a t =>
    constructor
    · intro h
      exfalso
      cases ht : pickMinPriority t with
      | none =>
        simp only [pickMinPriority, ht] at h
        exact Option.noConfusion h
      | some q =>
        simp only [pickMinPriority, ht] at h
        by_cases hlt : q.priority < a.priority
        · rw [if_pos hlt] at h
          exact Option.noConfusion h
        · rw [if_neg hlt] at h
          exact Option.noConfusion h
    · intro h
      exact absurd h (List.cons_ne_nil a t)

/-- The provider returned by `pickMinPriority` has minimal priority. -/
theorem pickMinPriority_le : ∀ {l : List RProvider} {p : RProvider},
    pickMinPriority l = some p → ∀ q ∈ l, p.priority ≤ q.priority := by
  intro l
  induction l with
  | nil =>
    intro p h
    simp [pickMinPriority] at h
  | cons a t ih =>
    intro p h q hq
    cases ht : pickMinPriority t with
    | none =>
      simp only [pickMinPriority, ht] at h
      obtain rfl : a = p := Option.some.inj h
      have hte : t = [] := pickMinPriority_eq_none.1 ht
      subst hte
      rcases List.mem_cons.1 hq with rfl | hq'
      · exact Nat.le_refl _
      · cases hq'
    | some r =>
      simp only [pickMinPriority, ht] at h
      by_cases hlt : r.priority < a.priority
      · rw [if_pos hlt] at h
        obtain rfl : r = p := Option.some.inj h
        rcases List.mem_cons.1 hq with rfl | hq'
        · exact Nat.le_of_lt hlt
        · exact ih ht q hq'
      · rw [if_neg hlt] at h
        obtain rfl : a = p := Option.some.inj h
        rcases List.mem_cons.1 hq with rfl | hq'
        · exact Nat.le_refl _
        · exact Nat.le_trans (Nat.le_of_not_lt hlt) (ih ht q hq')

/-- Selection property of `getNextAvailableProvider`: the provider is
available, belongs to the list, and no available provider has a
strictly smaller priority number. -/
theorem getNext_some {ps : List RProvider} {p : RProvider}
    (h : getNextAvailableProvider ps = some p) :
    p.available = true ∧ p ∈ ps ∧
      ∀ q ∈ ps, q.available = true → p.priority ≤ q.priority := by
  rw [getNextAvailableProvider] at h
  have hmem := pickMinPriority_mem h
  have hle := pickMinPriority_le h
  have hf := List.mem_filter.1 hmem
  refine ⟨hf.2, hf.1, ?_⟩
  intro q hq hqa
  exact hle q (List.mem_filter.2 ⟨hq, hqa⟩)

/-- When `getNextAvailableProvider` finds nothing, every provider is
unavailable. -/
theorem getNext_none {ps : List RProvider}
    (h : getNextAvailableProvider ps = none) :
    ∀ p ∈ ps, p.available = false := by
  rw [getNextAvailableProvider] at h
  have hnil : ps.filter (fun p => p.available) = [] := pickMinPriority_eq_none.1 h
  intro p hp
  cases hav : p.available with
  | false => rfl
  | true =>
    exfalso
    have : p ∈ ps.filter (fun p => p.available) := List.mem_filter.2 ⟨hp, hav⟩
    rw [hnil] at this
    cases this

/-- Counting monotonicity: a pointwise-weaker predicate counts no more
elements. -/
theorem countP_le_of_imp {α : Type} : ∀ (l : List α) (p q : α → Bool),
    (∀ a ∈ l, p a = true → q a = true) → l.countP p ≤ l.countP q := by
  intro l
  induction l with
  | nil =>
    intro p q _
    simp
  | cons a t ih =>
    intro p q h
    have ht := ih p q (fun b hb hpb => h b (List.mem_cons_of_mem _ hb) hpb)
    rw [List.countP_cons, List.countP_cons]
    cases hpa : p a with
    | false =>
      have h0 : (if (false = true) then (1 : Nat) else 0) = 0 := if_neg (by decide)
      rw [h0]
      omega
    | true =>
      have hqa := h a (List.mem_cons_self _ _) hpa
      have h1 : (if (true = true) then (1 : Nat) else 0) = 1 := if_pos rfl
      rw [hqa, h1]
      omega

/-- Strict counting: if some member satisfies the stronger predicate but
not the weaker, the weaker counts strictly fewer. -/
theorem countP_lt_of_mem {α : Type} : ∀ (l : List α) (p q : α → Bool),
    (∀ a ∈ l, q a = true → p a = true) → ∀ x ∈ l, p x = true → q x = false →
    l.countP q < l.countP p := by
  intro l
  induction l with
  | nil =>
    intro p q _ x hx
    cases hx
  | cons a t ih =>
    intro p q himp x hx hpx hqx
    rw [List.countP_cons, List.countP_cons]
    rcases List.mem_cons.1 hx with rfl | hxt
    · have hmono := countP_le_of_imp t q p
        (fun b hb hqb => himp b (List.mem_cons_of_mem _ hb) hqb)
      simp [hpx, hqx]
      omega
    · have hlt := ih p q (fun b hb hqb => himp b (List.mem_cons_of_mem _ hb) hqb)
        x hxt hpx hqx
      have hhead : (if q a = true then (1 : Nat) else 0)
          ≤ (if p a = true then (1 : Nat) else 0) := by
        cases hqa : q a with
        | false => simp [hqa]
        | true =>
          have hpa := himp a (List.mem_cons_self _ _) hqa
          simp [hqa, hpa]
      omega

/-- Marking a selected available provider as failed strictly decreases
the number of available providers. -/
theorem availCount_markFailure_lt (ps : List RProvider) (p : RProvider)
    (msg : String) (hp : p ∈ ps) (hav : p.available = true) :
    (markFailure ps p.name msg).countP (fun q => q.available)
      < ps.countP (fun q => q.available) := by
  rw [markFailure, List.countP_map]
  refine countP_lt_of_mem ps _ _ ?_ p hp hav ?_
  · intro a _ hqa
    by_cases hn : a.name == p.name
    · rw [Function.comp_apply, if_pos hn] at hqa
      cases hqa
    · rw [Function.comp_apply, if_neg hn] at hqa
      exact hqa
  · rw [Function.comp_apply, if_pos (by simp)]

/-- After any erroring pass of the `generateContent` loop whose fuel
bounds the number of available providers, every provider in the final
state is unavailable. -/
theorem generateContentGo_error_all_unavailable
    (f : String → Except String String) : ∀ (fuel : Nat) (s : RouterState)
    (lastErr : Option String) (att : List String) (e : RouterError),
    (generateContentGo f s lastErr att fuel).result = Except.error e →
    s.providers.countP (fun q => q.available) ≤ fuel →
    ∀ q ∈ (generateContentGo f s lastErr att fuel).state.providers,
      q.available = false := by
  intro fuel
  induction fuel with
  | zero =>
    intro s lastErr att e _ hcount q hq
    simp only [generateContentGo] at hq
    have hz := List.countP_eq_zero.1 (Nat.le_zero.1 hcount)
    have := hz q hq
    cases hav : q.available with
    | false => rfl
    | true => exact absurd hav this
  | succ n ih =>
    intro s lastErr att e hres hcount q hq
    cases hg : getNextAvailableProvider s.providers with
    | none =>
      simp only [generateContentGo, hg] at hq
      exact getNext_none hg q hq
    | some p =>
      cases hcall : callProvider f p with
      | ok content =>
        simp [generateContentGo, hg, hcall] at hres
      | error msg =>
        have hgen : generateContentGo f s lastErr att (n + 1)
            = generateContentGo f
                { providers := markFailure s.providers p.name msg
                  currentProvider := s.currentProvider }
                (some msg) (att ++ [p.name]) n := by
          simp [generateContentGo, hg, hcall]
        rw [hgen] at hres hq
        refine ih _ _ _ e hres ?_ q hq
        have h1 := getNext_some hg
        have h2 := availCount_markFailure_lt s.providers p msg h1.2.1 h1.1
        show (markFailure s.providers p.name msg).countP (fun q => q.available) ≤ n
        omega

/-- Any failing `generateContent` call leaves every provider
unavailable. -/
theorem generateContentRun_error_all_unavailable
    (f : String → Except String String) (s : RouterState) (e : RouterError)
    (h : (generateContentRun f s).result = Except.error e) :
    ∀ q ∈ (generateContentRun f s).state.providers, q.available = false :=
  generateContentGo_error_all_unavailable f s.providers.length s none [] e h
    (List.countP_le_length _)

/-- From a non-empty provider list with every provider unavailable, the
router fails immediately with the no-available-providers error, mutates
nothing and attempts nobody. -/
theorem generateContentRun_all_unavailable
    (g : String → Except String String) (s : RouterState)
    (hall : ∀ q ∈ s.providers, q.available = false)
    (hne : s.providers ≠ []) :
    generateContentRun g s =
      { result := Except.error RouterError.noAvailableProviders
        state := s, attempted := [] } := by
  obtain ⟨n, hn⟩ : ∃ n, s.providers.length = n + 1 := by
    have hlen : s.providers.length ≠ 0 := fun h0 => hne (List.length_eq_zero.1 h0)
    exact ⟨s.providers.length - 1, by omega⟩
  have hg : getNextAvailableProvider s.providers = none := by
    rw [getNextAvailableProvider]
    have hnil : s.providers.filter (fun p => p.available) = [] :=
      List.filter_eq_nil_iff.2 (fun a ha => by simp [hall a ha])
    rw [hnil]
    rfl
  rw [generateContentRun, hn]
  simp [generateContentGo, hg]

/-- The error shape of a failing pass: either the mid-loop
no-available-providers error or the post-loop all-failed error. -/
theorem generateContentGo_error_shape (f : String → Except String String) :
    ∀ (fuel : Nat) (s : RouterState) (lastErr : Option String)
    (att : List String) (e : RouterError),
    (generateContentGo f s lastErr att fuel).result = Except.error e →
    e = RouterError.noAvailableProviders ∨
      ∃ m, e = RouterError.allProvidersFailed m := by
  intro fuel
  induction fuel with
  | zero =>
    intro s lastErr att e h
    simp only [generateContentGo, Except.error.injEq] at h
    exact Or.inr ⟨lastErr, h.symm⟩
  | succ n ih =>
    intro s lastErr att e h
    cases hg : getNextAvailableProvider s.providers with
    | none =>
      simp only [generateContentGo, hg, Except.error.injEq] at h
      exact Or.inl h.symm
    | some p =>
      cases hcall : callProvider f p with
      | ok content =>
        simp [generateContentGo, hg, hcall] at h
      | error msg =>
        have hgen : generateContentGo f s lastErr att (n + 1)
            = generateContentGo f
                { providers := markFailure s.providers p.name msg
                  currentProvider := s.currentProvider }
                (some msg) (att ++ [p.name]) n := by
          simp [generateContentGo, hg, hcall]
        rw [hgen] at h
        exact ih _ _ _ e h

/-- The success-marked provider record is available with no recorded
error. -/
theorem markSuccess_spec (ps : List RProvider) (nm : String) :
    ∀ q ∈ markSuccess ps nm, q.name = nm →
      q.available = true ∧ q.lastError = none := by
  intro q hq hname
  rw [markSuccess] at hq
  obtain ⟨r, hr, hrq⟩ := List.mem_map.1 hq
  by_cases h : (r.name == nm) = true
  · rw [if_pos h] at hrq
    rw [← hrq]
    exact ⟨rfl, rfl⟩
  · rw [if_neg h] at hrq
    subst hrq
    exact absurd (beq_iff_eq.2 hname) h

/-- The failure-marked provider record is unavailable with the failure
message recorded. -/
theorem markFailure_spec (ps : List RProvider) (nm msg : String) :
    ∀ q ∈ markFailure ps nm msg, q.name = nm →
      q.available = false ∧ q.lastError = some msg := by
  intro q hq hname
  rw [markFailure] at hq
  obtain ⟨r, hr, hrq⟩ := List.mem_map.1 hq
  by_cases h : (r.name == nm) = true
  · rw [if_pos h] at hrq
    rw [← hrq]
    exact ⟨rfl, rfl⟩
  · rw [if_neg h] at hrq
    subst hrq
    exact absurd (beq_iff_eq.2 hname) h

/-- Claim C2 counterexample: from the initialized router state (OpenAI
pre-disabled for quota) with every provider call failing, Claude then
Gemini fail and are disabled, and the third iteration finds no available
provider — the call fails with the bare no-available-providers error,
not with an all-providers-exhausted error carrying the last failure
message ("gemini down"). -/
theorem router_exhaustion_error_shape_counterexample :
    (generateContentRun (fun nm => Except.error (nm ++ " down"))
        initRouterState).result
      = Except.error RouterError.noAvailableProviders ∧
    (generateContentRun (fun nm => Except.error (nm ++ " down"))
        initRouterState).attempted = ["claude", "gemini"] ∧
    RouterError.noAvailableProviders
      ≠ RouterError.allProvidersFailed (some "gemini down") := by
  decide

/-- Claim C2 (amended): providers are attempted in ascending priority
order restricted to `available = true`; a successful attempt marks the
provider available, clears its error, sets the current-provider pointer
and returns the content tagged with the serving provider; a failed
attempt marks the provider unavailable with the error recorded and the
pass continues from the updated state; a failing call ends with either
the no-available-providers error (no available provider remained at the
start of an iteration; it carries no message) or the
all-providers-exhausted error carrying the last failure message (only
when the full pass of `providers.length` attempts all failed), as on the
concrete fully-enabled pass. -/
theorem routeGenerate_priority_fallback :
    (∀ (ps : List RProvider) (p : RProvider),
        getNextAvailableProvider ps = some p →
        p.available = true ∧ p ∈ ps ∧
          ∀ q ∈ ps, q.available = true → p.priority ≤ q.priority) ∧
    (∀ (f : String → Except String String) (s : RouterState) (p : RProvider)
        (c : String),
        s.providers ≠ [] →
        getNextAvailableProvider s.providers = some p →
        callProvider f p = Except.ok c →
        generateContentRun f s =
          { result := Except.ok (c, p.name)
            state :=
              { providers := markSuccess s.providers p.name
                currentProvider := some p.name }
            attempted := [p.name] } ∧
          ∀ q ∈ markSuccess s.providers p.name, q.name = p.name →
            q.available = true ∧ q.lastError = none) ∧
    (∀ (f : String → Except String String) (s : RouterState) (p : RProvider)
        (msg : String),
        s.providers ≠ [] →
        getNextAvailableProvider s.providers = some p →
        callProvider f p = Except.error msg →
        generateContentRun f s =
          generateContentGo f
            { providers := markFailure s.providers p.name msg
              currentProvider := s.currentProvider }
            (some msg) [p.name] (s.providers.length - 1) ∧
          ∀ q ∈ markFailure s.providers p.name msg, q.name = p.name →
            q.available = false ∧ q.lastError = some msg) ∧
    (∀ (f : String → Except String String) (s : RouterState) (e : RouterError),
        (generateContentRun f s).result = Except.error e →
        e = RouterError.noAvailableProviders ∨
          ∃ m, e = RouterError.allProvidersFailed m) ∧
    ((generateContentRun (fun nm => Except.error (nm ++ " down"))
        (enableOpenAI initRouterState)).result
      = Except.error (RouterError.allProvidersFailed (some "openai down")) ∧
      (generateContentRun (fun nm => Except.error (nm ++ " down"))
        (enableOpenAI initRouterState)).attempted
        = ["claude", "gemini", "openai"]) := by
  refine ⟨fun ps p h => getNext_some h, ?_, ?_, ?_, by decide, by decide⟩
  · intro f s p c hne hg hcall
    obtain ⟨n, hn⟩ : ∃ n, s.providers.length = n + 1 := by
      have hlen : s.providers.length ≠ 0 := fun h0 => hne (List.length_eq_zero.1 h0)
      exact ⟨s.providers.length - 1, by omega⟩
    refine ⟨?_, markSuccess_spec s.providers p.name⟩
    rw [generateContentRun, hn]
    simp [generateContentGo, hg, hcall]
  · intro f s p msg hne hg hcall
    obtain ⟨n, hn⟩ : ∃ n, s.providers.length = n + 1 := by
      have hlen : s.providers.length ≠ 0 := fun h0 => hne (List.length_eq_zero.1 h0)
      exact ⟨s.providers.length - 1, by omega⟩
    refine ⟨?_, markFailure_spec s.providers p.name msg⟩
    rw [generateContentRun, hn]
    simp [generateContentGo, hg, hcall, Nat.add_sub_cancel]
  · intro f s e h
    exact generateContentGo_error_shape f s.providers.length s none [] e h

/-- Witness for C2's amended theorem at concrete inputs: on the
initialized router a succeeding Claude call is selected first (priority
1) and served; on the fully-enabled router with every call failing the
pass exhausts all three providers. -/
theorem routeGenerate_priority_fallback_witness :
    generateContentRun (fun _ => Except.ok "content") initRouterState =
      { result := Except.ok ("content", "claude")
        state :=
          { providers := markSuccess initRouterState.providers "claude"
            currentProvider := some "claude" }
        attempted := ["claude"] } ∧
    (generateContentRun (fun nm => Except.error (nm ++ " down"))
        (enableOpenAI initRouterState)).result
      = Except.error (RouterError.allProvidersFailed (some "openai down")) := by
  constructor
  · have h := routeGenerate_priority_fallback.2.1
      (fun _ => Except.ok "content") initRouterState
      { name := "claude", priority := 1, available := true, lastError := none }
      "content" (by decide) (by decide) (by decide)
    exact h.1
  · exact routeGenerate_priority_fallback.2.2.2.2.1

/-- Claim C10: a pass in which every provider was attempted and all
failed leaves every provider unavailable; from that state any subsequent
`generateContent` call fails immediately with the
no-available-providers error, mutating nothing and attempting no
provider, until `enableOpenAI` (or another external mutation) flips a
provider back to available. -/
theorem router_unavailable_after_total_failure
    (f g : String → Except String String) (s : RouterState) (e : RouterError)
    (h1 : (generateContentRun f s).result = Except.error e)
    (_h2 : ∀ p ∈ s.providers, p.name ∈ (generateContentRun f s).attempted) :
    (∀ q ∈ (generateContentRun f s).state.providers, q.available = false) ∧
    ((generateContentRun f s).state.providers ≠ [] →
      generateContentRun g (generateContentRun f s).state =
        { result := Except.error RouterError.noAvailableProviders
          state := (generateContentRun f s).state
          attempted := [] }) ∧
    (∀ q ∈ (enableOpenAI (generateContentRun f s).state).providers,
        q.name = "openai" → q.available = true ∧ q.lastError = none) := by
  have ha := generateContentRun_error_all_unavailable f s e h1
  refine ⟨ha, fun hne => generateContentRun_all_unavailable g _ ha hne, ?_⟩
  intro q hq hname
  rw [enableOpenAI] at hq
  obtain ⟨r, hr, hrq⟩ := List.mem_map.1 hq
  by_cases h : (r.name == "openai") = true
  · rw [if_pos h] at hrq
    rw [← hrq]
    exact ⟨rfl, rfl⟩
  · rw [if_neg h] at hrq
    subst hrq
    exact absurd (beq_iff_eq.2 hname) h

/-- Witness for C10 at a concrete input: the fully-enabled router with
every provider call failing. -/
theorem router_unavailable_after_total_failure_witness :
    ((generateContentRun (fun nm => Except.error (nm ++ " down"))
        (enableOpenAI initRouterState)).state.providers.all
        (fun q => !q.available)) = true ∧
    (generateContentRun (fun _ => Except.ok "recovered")
        (generateContentRun (fun nm => Except.error (nm ++ " down"))
          (enableOpenAI initRouterState)).state).result
      = Except.error RouterError.noAvailableProviders := by
  have h := router_unavailable_after_total_failure
    (fun nm => Except.error (nm ++ " down")) (fun _ => Except.ok "recovered")
    (enableOpenAI initRouterState)
    (RouterError.allProvidersFailed (some "openai down")) (by decide) (by decide)
  constructor
  · rw [List.all_eq_true]
    intro q hq
    rw [h.1 q hq]
    rfl
  · rw [h.2.1 (by decide)]
end HFSeo

namespace HFSeo

/-- An envelope behind a settled value inherits the slot's
well-formedness. -/
theorem settledValue_wf {D : Type} {s : Settled (APIResponse D)}
    {r : APIResponse D} (hwf : settledWF s) (h : settledValue s = some r) :
    envelopeWF r := by
  cases s with
  | fulfilled a =>
    cases Option.some.inj h
    exact hwf
  | rejected => simp [settledValue] at h

/-- A successful well-formed slot yields payload data. -/
theorem respSuccess_bind_data {D : Type} {so : Settled (APIResponse D)}
    (hwf : settledWF so) (h : respSuccess (settledValue so) = true) :
    ∃ d, (settledValue so).bind (fun r => r.data) = some d := by
  cases hs : settledValue so with
  | none =>
    rw [hs] at h
    simp [respSuccess] at h
  | some r =>
    rw [hs] at h
    have hw := settledValue_wf hwf hs
    have hd := hw.1 (by simpa [respSuccess] using h)
    obtain ⟨d, hd'⟩ := Option.isSome_iff_exists.1 hd
    exact ⟨d, by simp [hd']⟩

/-- A failed well-formed slot yields no payload data. -/
theorem bind_data_none_of_failed {D : Type} {so : Settled (APIResponse D)}
    (hwf : settledWF so) (h : respSuccess (settledValue so) = false) :
    (settledValue so).bind (fun r => r.data) = none := by
  cases hs : settledValue so with
  | none => rfl
  | some r =>
    rw [hs] at h
    have hw := settledValue_wf hwf hs
    simp only [respSuccess] at h
    simpa using hw.2 h

/-- A failed slot contributes nothing to the Perplexity merge (the merge
is guarded by the success flag, so no well-formedness is needed). -/
theorem successData_of_failed {D : Type} {ro : Option (APIResponse D)}
    (h : respSuccess ro = false) : successData ro = none := by
  cases ro with
  | none => rfl
  | some r =>
    simp only [respSuccess] at h
    simp [successData, h]

/-- When at least one fan-out slot succeeded and both are well-formed,
`baseData` is present. -/
theorem baseData_exists {inp : RouteInputs}
    (hwfO : settledWF inp.openaiResult) (hwfP : settledWF inp.perplexityResult)
    (hor : (respSuccess (settledValue inp.openaiResult)
        || respSuccess (settledValue inp.perplexityResult)) = true) :
    ∃ b, ((settledValue inp.openaiResult).bind (fun r => r.data)
        <|> (settledValue inp.perplexityResult).bind (fun r => r.data)) = some b := by
  cases ho : respSuccess (settledValue inp.openaiResult) with
  | true =>
    obtain ⟨d, hd⟩ := respSuccess_bind_data hwfO ho
    exact ⟨d, by rw [hd]; rfl⟩
  | false =>
    have hp : respSuccess (settledValue inp.perplexityResult) = true := by
      rw [ho] at hor
      simpa using hor
    obtain ⟨d, hd⟩ := respSuccess_bind_data hwfP hp
    have hn := bind_data_none_of_failed hwfO ho
    exact ⟨d, by rw [hn, hd]; rfl⟩

/-- Reduction of the route on the success path. -/
theorem analyzeRoute_ok_eq (body : AnalyzeBody) (inp : RouteInputs) (nowMs : Nat)
    (b : CompetitorAnalysisResponse)
    (hbody : (body.websiteUrl == "" || body.targetKeywords.isEmpty) = false)
    (hgate : (!(respSuccess (settledValue inp.openaiResult))
        && !(respSuccess (settledValue inp.perplexityResult))) = false)
    (hbase : ((settledValue inp.openaiResult).bind (fun r => r.data)
        <|> (settledValue inp.perplexityResult).bind (fun r => r.data)) = some b) :
    analyzeRoute body inp nowMs = RouteResult.ok (routeOkEnvelope body inp nowMs b) := by
  simp only [analyzeRoute, hbody, hgate, hbase, Bool.false_eq_true, if_false]

/-- Reduction of the route on the total-failure path. -/
theorem analyzeRoute_bothFailed_eq (body : AnalyzeBody) (inp : RouteInputs)
    (nowMs : Nat)
    (hbody : (body.websiteUrl == "" || body.targetKeywords.isEmpty) = false)
    (ho : respSuccess (settledValue inp.openaiResult) = false)
    (hp : respSuccess (settledValue inp.perplexityResult) = false) :
    analyzeRoute body inp nowMs = RouteResult.bothFailed
      ((settledValue inp.openaiResult) <|> (settledValue inp.perplexityResult)) := by
  simp only [analyzeRoute, hbody, ho, hp, Bool.false_eq_true, if_false,
    Bool.not_false, Bool.and_self, if_true]
end HFSeo

namespace HFSeo

/-- If one of two flags is set, the both-failed gate is not taken. -/
theorem gate_false_of_or {a b : Bool} (h : (a || b) = true) :
    (!a && !b) = false := by
  cases a <;> cases b <;> simp_all

/-- Success envelopes always carry data. -/
theorem envelopeWF_success {D : Type} (provider : String) (d : D) (now : Nat)
    (cached : Bool) (tok : Option Nat) :
    envelopeWF (createSuccessResponse provider d now cached tok) :=
  ⟨fun _ => rfl, fun h => nomatch h⟩

/-- Error envelopes never carry data. -/
theorem envelopeWF_error {D : Type} (provider : String) (e : ThrownError)
    (now : Nat) :
    envelopeWF (createErrorResponse provider e now : APIResponse D) := by
  constructor
  · intro h
    simp [createErrorResponse] at h
  · intro _
    rfl

/-- Claim C1: the fan-out route returns the 200 success result exactly
when at least one of the two fanned-out provider calls succeeded (so an
error result arises only from total fan-out failure), and the returned
payload is merged from the successful outcomes only: with OpenAI
successful, the payload is unchanged under swapping the failed
Perplexity outcome for any other failed outcome; with Perplexity
successful, the provider-derived content is unchanged under swapping the
failed OpenAI outcome (only the wall-clock `analysisTime` can differ,
since the route reads the base timestamp from the first fulfilled
envelope). -/
theorem fanout_partial_tolerance (body : AnalyzeBody) (inp : RouteInputs)
    (nowMs : Nat)
    (hbody : (body.websiteUrl == "" || body.targetKeywords.isEmpty) = false)
    (hwfO : settledWF inp.openaiResult) (hwfP : settledWF inp.perplexityResult) :
    routeIsOk (analyzeRoute body inp nowMs)
        = (respSuccess (settledValue inp.openaiResult)
            || respSuccess (settledValue inp.perplexityResult)) ∧
    (∀ s1 s2 : Settled (APIResponse CompetitorAnalysisResponse),
        respSuccess (settledValue inp.openaiResult) = true →
        respSuccess (settledValue s1) = false →
        respSuccess (settledValue s2) = false →
        routeData (analyzeRoute body { inp with perplexityResult := s1 } nowMs)
          = routeData (analyzeRoute body { inp with perplexityResult := s2 } nowMs)) ∧
    (∀ s1 s2 : Settled (APIResponse CompetitorAnalysisResponse),
        respSuccess (settledValue inp.perplexityResult) = true →
        settledWF s1 → settledWF s2 →
        respSuccess (settledValue s1) = false →
        respSuccess (settledValue s2) = false →
        (routeData (analyzeRoute body { inp with openaiResult := s1 } nowMs)).map
            analysisContent
          = (routeData (analyzeRoute body { inp with openaiResult := s2 } nowMs)).map
              analysisContent) := by
  refine ⟨?_, ?_, ?_⟩
  · cases hor : (respSuccess (settledValue inp.openaiResult)
        || respSuccess (settledValue inp.perplexityResult)) with
    | true =>
      obtain ⟨b, hb⟩ := baseData_exists hwfO hwfP hor
      rw [analyzeRoute_ok_eq body inp nowMs b hbody (gate_false_of_or hor) hb]
      rfl
    | false =>
      obtain ⟨ho, hp⟩ : respSuccess (settledValue inp.openaiResult) = false ∧
          respSuccess (settledValue inp.perplexityResult) = false := by
        cases h1 : respSuccess (settledValue inp.openaiResult) <;>
          cases h2 : respSuccess (settledValue inp.perplexityResult) <;>
            simp_all
      rw [analyzeRoute_bothFailed_eq body inp nowMs hbody ho hp]
      rfl
  · intro s1 s2 ho hf1 hf2
    obtain ⟨d, hd⟩ := respSuccess_bind_data hwfO ho
    cases hso : settledValue inp.openaiResult with
    | none =>
      rw [hso] at ho
      simp [respSuccess] at ho
    | some r =>
      have hgate1 : (!(respSuccess (settledValue inp.openaiResult))
          && !(respSuccess (settledValue s1))) = false := by rw [ho]; rfl
      have hgate2 : (!(respSuccess (settledValue inp.openaiResult))
          && !(respSuccess (settledValue s2))) = false := by rw [ho]; rfl
      have hbase1 : ((settledValue inp.openaiResult).bind (fun r => r.data)
          <|> (settledValue s1).bind (fun r => r.data)) = some d := by
        rw [hd]
        rfl
      have hbase2 : ((settledValue inp.openaiResult).bind (fun r => r.data)
          <|> (settledValue s2).bind (fun r => r.data)) = some d := by
        rw [hd]
        rfl
      rw [analyzeRoute_ok_eq body { inp with perplexityResult := s1 } nowMs d hbody
          hgate1 hbase1,
        analyzeRoute_ok_eq body { inp with perplexityResult := s2 } nowMs d hbody
          hgate2 hbase2]
      have hm1 : mergePerplexity d (settledValue s1) = d := by
        rw [mergePerplexity, successData_of_failed hf1]
      have hm2 : mergePerplexity d (settledValue s2) = d := by
        rw [mergePerplexity, successData_of_failed hf2]
      simp [routeOkEnvelope, routeData, hso, hm1, hm2]
  · intro s1 s2 hp hw1 hw2 hf1 hf2
    obtain ⟨d, hd⟩ := respSuccess_bind_data hwfP hp
    have hn1 := bind_data_none_of_failed hw1 hf1
    have hn2 := bind_data_none_of_failed hw2 hf2
    have hgate1 : (!(respSuccess (settledValue s1))
        && !(respSuccess (settledValue inp.perplexityResult))) = false := by
      rw [hf1, hp]
      rfl
    have hgate2 : (!(respSuccess (settledValue s2))
        && !(respSuccess (settledValue inp.perplexityResult))) = false := by
      rw [hf2, hp]
      rfl
    have hbase1 : ((settledValue s1).bind (fun r => r.data)
        <|> (settledValue inp.perplexityResult).bind (fun r => r.data)) = some d := by
      rw [hn1, hd]
      rfl
    have hbase2 : ((settledValue s2).bind (fun r => r.data)
        <|> (settledValue inp.perplexityResult).bind (fun r => r.data)) = some d := by
      rw [hn2, hd]
      rfl
    rw [analyzeRoute_ok_eq body { inp with openaiResult := s1 } nowMs d hbody
        hgate1 hbase1,
      analyzeRoute_ok_eq body { inp with openaiResult := s2 } nowMs d hbody
        hgate2 hbase2]
    simp [routeOkEnvelope, routeData, analysisContent]

/-- Witness for C1 at a concrete input: both fan-out calls succeed, so
the route returns 200. -/
theorem fanout_partial_tolerance_witness :
    routeIsOk (analyzeRoute fixtureBody inputsFanoutOnly 5000)
      = (respSuccess (settledValue inputsFanoutOnly.openaiResult)
          || respSuccess (settledValue inputsFanoutOnly.perplexityResult)) := by
  have hwfO : settledWF inputsFanoutOnly.openaiResult :=
    envelopeWF_success "openai" (fixtureData [mkCompetitor "a.com" 70]) 1000 false
      (some 10)
  have hwfP : settledWF inputsFanoutOnly.perplexityResult :=
    envelopeWF_success "perplexity" (fixtureData [mkCompetitor "b.com" 80]) 1000
      false (some 10)
  exact (fanout_partial_tolerance fixtureBody inputsFanoutOnly 5000 (by decide)
    hwfO hwfP).1

/-- Claim C8 counterexample: two runs in which exactly two of the three
provider calls succeed produce different confidences — 85 when the two
fan-out providers succeed but the Claude gaps call fails, 95 when OpenAI
and Claude succeed but Perplexity fails — so the confidence is not the
base value plus a fixed increment per additional successful contributing
provider. -/
theorem confidence_ignores_provider_count :
    successCount inputsFanoutOnly = 2 ∧
    successCount inputsOpenaiClaude = 2 ∧
    routeConfidence (analyzeRoute fixtureBody inputsFanoutOnly 5000) = some 85 ∧
    routeConfidence (analyzeRoute fixtureBody inputsOpenaiClaude 5000) = some 95 ∧
    (85 : Nat) ≠ 95 := by
  decide

/-- Claim C8 (amended): the confidence of a successful fan-out result is
95 when the Claude content-gaps call succeeded and 85 otherwise,
independently of how many fan-out providers succeeded; in particular,
when exactly 1 of the 3 provider calls succeeds the confidence is the
base 85. -/
theorem confidence_from_claude_success (body : AnalyzeBody) (inp : RouteInputs)
    (nowMs : Nat)
    (hbody : (body.websiteUrl == "" || body.targetKeywords.isEmpty) = false)
    (hwfO : settledWF inp.openaiResult) (hwfP : settledWF inp.perplexityResult)
    (hor : (respSuccess (settledValue inp.openaiResult)
        || respSuccess (settledValue inp.perplexityResult)) = true) :
    routeConfidence (analyzeRoute body inp nowMs)
        = some (if inp.claudeGaps.success then 95 else 85) ∧
    (successCount inp = 1 →
      routeConfidence (analyzeRoute body inp nowMs) = some 85) := by
  obtain ⟨b, hb⟩ := baseData_exists hwfO hwfP hor
  rw [analyzeRoute_ok_eq body inp nowMs b hbody (gate_false_of_or hor) hb]
  constructor
  · simp [routeConfidence, routeData, routeOkEnvelope]
  · intro hcount
    have hclaude : inp.claudeGaps.success = false := by
      by_contra hcl
      rw [Bool.not_eq_false] at hcl
      rw [successCount] at hcount
      cases ho : respSuccess (settledValue inp.openaiResult) <;>
        cases hpp : respSuccess (settledValue inp.perplexityResult) <;>
          rw [ho, hpp] at hcount hor <;> simp [hcl] at hcount hor
    simp [routeConfidence, routeData, routeOkEnvelope, hclaude]

/-- Witness for C8's amended theorem at a concrete input. -/
theorem confidence_from_claude_success_witness :
    routeConfidence (analyzeRoute fixtureBody inputsFanoutOnly 5000)
      = some (if inputsFanoutOnly.claudeGaps.success then 95 else 85) := by
  have hwfO : settledWF inputsFanoutOnly.openaiResult :=
    envelopeWF_success "openai" (fixtureData [mkCompetitor "a.com" 70]) 1000 false
      (some 10)
  have hwfP : settledWF inputsFanoutOnly.perplexityResult :=
    envelopeWF_success "perplexity" (fixtureData [mkCompetitor "b.com" 80]) 1000
      false (some 10)
  exact (confidence_from_claude_success fixtureBody inputsFanoutOnly 5000
    (by decide) hwfO hwfP (by decide)).1
end HFSeo
